import Mathlib

set_option maxRecDepth 8000

/-!
Verification of the Follower plugin (src/index.tsx) against its
natural-language specification.

The development shallowly embeds the plugin's logic in Lean:

* the Whitelist Store (addToWhitelist, removeFromWhitelist, isInWhitelist,
  src/index.tsx lines 104-145) operates on the persisted comma-separated
  settings string, passed and returned explicitly;
* the Notification Gate (shouldNotify, line 210-212) takes the current
  channel id as an explicit Option String parameter (undefined = none);
* the Payload Normalizer (convertSnakeCaseToCamelCase, lines 152-162)
  operates on a JSON-like value type;
* the MESSAGE_DELETE and USER_PROFILE_FETCH_SUCCESS flux handlers
  (lines 318-350, 365-408) become pure functions from their environment
  (message store contents, caches, payload) to their observable effects
  (updated caches, notification shown or not).
-/

namespace Follower

/- ============================================================ -/
/-  Whitelist Store (src/index.tsx lines 104-145)               -/
/- ============================================================ -/

/-- Splitting a character list at every comma, with the semantics of
JavaScript "s.split(\x22,\x22)": the empty string splits to one empty
piece, and separators at the ends produce empty pieces. -/
def jsSplitComma : List Char → List (List Char)
  | [] => [[]]
  | c :: rest =>
    if c = ',' then [] :: jsSplitComma rest
    else
      match jsSplitComma rest with
      | t :: ts => (c :: t) :: ts
      | [] => [[c]]

/-- Whitespace trimming on both ends of a character list, the semantics
of JavaScript "item.trim()". -/
def trimChars (l : List Char) : List Char :=
  ((l.dropWhile Char.isWhitespace).reverse.dropWhile Char.isWhitespace).reverse

/-- String-level trim. -/
def trimStr (s : String) : String := String.mk (trimChars s.data)

/-- The whitelist parse performed by every Whitelist Store operation
(src/index.tsx lines 105-107, 122-124, 141-143): a falsy (empty) stored
string yields the empty list, otherwise split on commas, trim each item
and drop empty items. -/
def parseWhitelist (s : String) : List String :=
  if s = "" then []
  else ((jsSplitComma s.data).map (fun l => trimStr (String.mk l))).filter (fun t => t ≠ "")

/-- Joining with comma separators, the semantics of JavaScript
"items.join(\x22,\x22)" at the character-list level. -/
def joinCommaChars : List (List Char) → List Char
  | [] => []
  | [x] => x
  | x :: xs => x ++ ',' :: joinCommaChars xs

/-- String-level comma join. -/
def joinCommas (l : List String) : String :=
  String.mk (joinCommaChars (l.map String.data))

/-- addToWhitelist (src/index.tsx lines 104-115): parse the stored
string; if the id is absent, append it and store the rejoined string;
otherwise leave the store unchanged (a warning is logged). -/
def addToWhitelist (s id : String) : String :=
  let items := parseWhitelist s
  if id ∈ items then s else joinCommas (items ++ [id])

/-- removeFromWhitelist (src/index.tsx lines 121-133): parse the stored
string; if the id is present, remove its first occurrence (indexOf +
splice) and store the rejoined string; otherwise leave the store
unchanged (a warning is logged). -/
def removeFromWhitelist (s id : String) : String :=
  let items := parseWhitelist s
  if id ∈ items then joinCommas (items.erase id) else s

/-- isInWhitelist (src/index.tsx lines 140-145): parse the stored string
and test membership by exact string equality (Array.includes). -/
def isInWhitelist (s id : String) : Bool :=
  decide (id ∈ parseWhitelist s)

/- ============================================================ -/
/-  Notification Gate (src/index.tsx lines 210-212)             -/
/- ============================================================ -/

/-- shouldNotify (src/index.tsx lines 210-212): the author must be
whitelisted and the event's channel id must differ (JavaScript strict
inequality, where both sides may be undefined = none) from the id of the
currently focused channel. -/
def shouldNotify (whitelist : String) (currentChannelId : Option String)
    (userId : String) (channelId : Option String) : Bool :=
  isInWhitelist whitelist userId && decide (currentChannelId ≠ channelId)

/- ============================================================ -/
/-  Message body formatting (src/index.tsx lines 220-228)       -/
/- ============================================================ -/

/-- The generic placeholder body used by getMessageBody. -/
def placeholderBody : String := "Click to jump to the message"

/-- JavaScript falsy-or on strings: "a || b" where the empty string is
the only falsy string value involved. -/
def jsOrStr (a b : String) : String := if a = "" then b else a

/-- getMessageBody (src/index.tsx lines 220-228): when message bodies
are disabled return the placeholder; otherwise take the content, falling
back to the first attachment's filename and then to the placeholder, and
clip it to charLimit characters plus an ellipsis when charLimit is
positive and exceeded. -/
def getMessageBody (showMessageBody : Bool) (charLimit : Int) (content : String)
    (attachmentFilenames : List String) : String :=
  if showMessageBody = false then placeholderBody
  else
    let baseContent := jsOrStr content (jsOrStr ((attachmentFilenames.head?).getD "") placeholderBody)
    if charLimit > 0 ∧ (baseContent.length : Int) > charLimit then
      baseContent.take charLimit.toNat ++ "..."
    else baseContent

/-- The body-truncation rule as the specification states it (spec.md
section 4.4): content is clipped to the configured character limit with
an ellipsis appended when the limit is positive and exceeded, and is
returned unmodified otherwise (a limit of 0 means unlimited). Stated
separately so that handler bodies can be compared against it. -/
def specTruncate (charLimit : Int) (s : String) : String :=
  if charLimit > 0 ∧ (s.length : Int) > charLimit then
    s.take charLimit.toNat ++ "..."
  else s

/- ============================================================ -/
/-  JSON-like payload values                                    -/
/- ============================================================ -/

mutual
/-- JSON-like values carried by host event payloads. Objects and arrays
are modelled by the mutually inductive types JFields and JArr so that
all functions on them are structurally recursive. -/
inductive JValue where
  | str (s : String)
  | num (n : Int)
  | jbool (b : Bool)
  | null
  | obj (fields : JFields)
  | arr (elems : JArr)

/-- Ordered key-value fields of a JSON object. -/
inductive JFields where
  | nil
  | cons (key : String) (val : JValue) (rest : JFields)

/-- Elements of a JSON array. -/
inductive JArr where
  | nil
  | cons (val : JValue) (rest : JArr)
end

mutual
/-- Boolean structural equality on JValue. -/
def JValue.beq : JValue → JValue → Bool
  | .str a, .str b => a == b
  | .num a, .num b => a == b
  | .jbool a, .jbool b => a == b
  | .null, .null => true
  | .obj a, .obj b => JFields.beq a b
  | .arr a, .arr b => JArr.beq a b
  | _, _ => false

/-- Boolean structural equality on JFields. -/
def JFields.beq : JFields → JFields → Bool
  | .nil, .nil => true
  | .cons k v r, .cons k2 v2 r2 => k == k2 && JValue.beq v v2 && JFields.beq r r2
  | _, _ => false

/-- Boolean structural equality on JArr. -/
def JArr.beq : JArr → JArr → Bool
  | .nil, .nil => true
  | .cons v r, .cons v2 r2 => JValue.beq v v2 && JArr.beq r r2
  | _, _ => false
end

/-- Property lookup on a JSON object, "obj[key]": the first field with a
matching key, none for a missing key (JavaScript undefined). -/
def jlookup : JFields → String → Option JValue
  | .nil, _ => none
  | .cons k v rest, key => if k = key then some v else jlookup rest key

/-- The key list of a JSON object, "Object.keys(obj)". -/
def jkeys : JFields → List String
  | .nil => []
  | .cons k _ rest => k :: jkeys rest

/-- Property assignment with JavaScript object-spread semantics
("{...newObj, [key]: value}"): an existing key keeps its position and
gets the new value, a fresh key is appended. -/
def jsSet : JFields → String → JValue → JFields
  | .nil, k, v => .cons k v .nil
  | .cons k2 v2 rest, k, v => if k2 = k then .cons k v rest else .cons k2 v2 (jsSet rest k v)

/- ============================================================ -/
/-  Payload Normalizer (src/index.tsx lines 152-162)            -/
/- ============================================================ -/

/-- The key transformation of convertSnakeCaseToCamelCase: the regex
replace of "_([a-z])" (case-insensitively, globally) by the uppercased
captured letter, scanning left to right without overlap. -/
def camelizeChars : List Char → List Char
  | [] => []
  | '_' :: c :: rest =>
    if c.isAlpha then c.toUpper :: camelizeChars rest else '_' :: camelizeChars (c :: rest)
  | c :: rest => c :: camelizeChars rest

/-- String-level snake_case-to-camelCase key conversion. -/
def camelizeKey (s : String) : String := String.mk (camelizeChars s.data)

mutual
/-- convertSnakeCaseToCamelCase (src/index.tsx lines 152-162): scalars
are returned unchanged, arrays are mapped elementwise, and objects are
rebuilt by a left fold that camelizes every key and recursively converts
every value. -/
def convertSnakeCaseToCamelCase : JValue → JValue
  | .obj fields => .obj (convFieldsAux fields .nil)
  | .arr xs => .arr (convArrAux xs)
  | v => v

/-- The reduce over Object.keys in convertSnakeCaseToCamelCase, with the
accumulator built by object spread. -/
def convFieldsAux : JFields → JFields → JFields
  | .nil, acc => acc
  | .cons k v rest, acc =>
    convFieldsAux rest (jsSet acc (camelizeKey k) (convertSnakeCaseToCamelCase v))

/-- Elementwise conversion of a JSON array. -/
def convArrAux : JArr → JArr
  | .nil => .nil
  | .cons v rest => .cons (convertSnakeCaseToCamelCase v) (convArrAux rest)
end

/- ============================================================ -/
/-  USER_PROFILE_FETCH_SUCCESS (src/index.tsx lines 365-408)    -/
/- ============================================================ -/

/-- The fixed field set whose changes are reported by the profile-fetch
handler (src/index.tsx lines 380-391). -/
def trackedProfileFields : List String :=
  ["username", "globalName", "avatar", "discriminator", "clan", "flags",
   "banner", "banner_color", "accent_color", "bio"]

/-- JavaScript strict inequality "a !== b" between two property reads
that may be undefined (none). Primitives compare by value; an object or
array on either side is always unequal, because the handler compares a
freshly normalized copy whose object references are necessarily new. -/
def jsStrictNeq : Option JValue → Option JValue → Bool
  | some (.str a), some (.str b) => decide (a ≠ b)
  | some (.num a), some (.num b) => decide (a ≠ b)
  | some (.jbool a), some (.jbool b) => decide (a ≠ b)
  | some .null, some .null => false
  | some _, some _ => true
  | none, none => false
  | _, _ => true

/-- The changed-key computation of the profile-fetch handler
(src/index.tsx lines 377-392): keys of the raw payload user whose value
strictly differs from the cached normalized user's value and which
belong to the fixed tracked field set. -/
def profileChangedKeys (ufields oldUserUser : JFields) : List String :=
  (jkeys ufields).filter (fun key =>
    jsStrictNeq (jlookup ufields key) (jlookup oldUserUser key)
      && decide (key ∈ trackedProfileFields))

/-- First-match lookup in the oldUsers snapshot cache. -/
def cacheLookup : List (String × JValue) → String → Option JValue
  | [], _ => none
  | (k, v) :: rest, key => if k = key then some v else cacheLookup rest key

/-- Assignment in the oldUsers snapshot cache ("oldUsers[id] = v"). -/
def cacheSet : List (String × JValue) → String → JValue → List (String × JValue)
  | [], k, v => [(k, v)]
  | (k2, v2) :: rest, k, v =>
    if k2 = k then (k, v) :: rest else (k2, v2) :: cacheSet rest k v

/-- The "oldUser.user" fields the handler diffs against: the cached
snapshot is normalized again and its "user" property is read
(src/index.tsx lines 370, 379). Cached snapshots always hold an object
with a user object, so other shapes map to the empty field list. -/
def cachedUserFields (cached : JValue) : JFields :=
  match convertSnakeCaseToCamelCase cached with
  | .obj ofields =>
    match jlookup ofields "user" with
    | some (.obj uf) => uf
    | _ => .nil
  | _ => .nil

/-- The "user.username" read used for the notification title; a missing
or non-string username renders as undefined in the template literal. -/
def usernameOf (ufields : JFields) : String :=
  match jlookup ufields "username" with
  | some (.str n) => n
  | _ => "undefined"

/-- USER_PROFILE_FETCH_SUCCESS handler (src/index.tsx lines 365-408) as
a function from the whitelist string, the trackProfileChanges setting,
the oldUsers snapshot cache and the event payload to the updated cache
and the notification (title, body) shown, if any. -/
def userProfileFetchSuccess (whitelist : String) (trackProfileChanges : Bool)
    (oldUsers : List (String × JValue)) (payload : JValue) :
    List (String × JValue) × Option (String × String) :=
  match payload with
  | .obj pfields =>
    match jlookup pfields "user" with
    | some (.obj ufields) =>
      match jlookup ufields "id" with
      | some (.str uid) =>
        if uid = "" ∨ isInWhitelist whitelist uid = false ∨ trackProfileChanges = false then
          (oldUsers, none)
        else
          let normalizedPayload := convertSnakeCaseToCamelCase payload
          match cacheLookup oldUsers uid with
          | none => (cacheSet oldUsers uid normalizedPayload, none)
          | some cached =>
            let changedKeys := profileChangedKeys ufields (cachedUserFields cached)
            if changedKeys = [] then (oldUsers, none)
            else
              (cacheSet oldUsers uid normalizedPayload,
               some (usernameOf ufields ++ " updated their profile!",
                     "Updated properties: " ++ String.intercalate ", " changedKeys ++ "."))
      | _ => (oldUsers, none)
    | _ => (oldUsers, none)
  | _ => (oldUsers, none)

/- ============================================================ -/
/-  MESSAGE_DELETE (src/index.tsx lines 318-350)                -/
/- ============================================================ -/

/-- The fields of a Discord message the MESSAGE_DELETE handler reads. -/
structure DMessage where
  id : String
  channel_id : String
  author_id : Option String
  content : String
deriving DecidableEq, Repr

/-- Lookup in the loggedMessages map ("loggedMessages[id]"). -/
def lookupLogged : List (String × DMessage) → String → Option DMessage
  | [], _ => none
  | (k, m) :: rest, key => if k = key then some m else lookupLogged rest key

/-- MessageStore.getMessage(channelId, id) modelled as lookup in a
snapshot of the live store keyed by (channel id, message id). -/
def getMessage : List ((String × String) × DMessage) → String → String → Option DMessage
  | [], _, _ => none
  | ((c, i), m) :: rest, channelId, id =>
    if c = channelId ∧ i = id then some m else getMessage rest channelId id

/-- JavaScript falsy-or on possibly undefined message objects. -/
def jsOrMsg (a b : Option DMessage) : Option DMessage :=
  match a with
  | some m => some m
  | none => b

/-- The notification body built by the MESSAGE_DELETE handler
(src/index.tsx line 340): the original content, clipped at a hardcoded
100 characters with an ellipsis when longer, wrapped in double quotes. -/
def deletedMessageBody (content : String) : String :=
  "\"" ++ (if content.length > 100 then content.take 100 ++ "..." else content) ++ "\""

/-- The observable outcome of one MESSAGE_DELETE handler run. -/
structure MessageDeleteResult where
  loggedMessages : List (String × DMessage)
  resolved : Option DMessage
  importAttempted : Bool
  errorLogged : Bool
  notificationBody : Option String
deriving DecidableEq, Repr

/-- The tail of the MESSAGE_DELETE handler once a message is resolved
(src/index.tsx lines 334-349): gate on the author and the message's
channel, then show the notification with the quoted clipped content. -/
def deleteFinish (whitelist : String) (currentChannelId : Option String)
    (lg : List (String × DMessage)) (imp : Bool) (m : DMessage) : MessageDeleteResult :=
  match m.author_id with
  | some authorId =>
    if shouldNotify whitelist currentChannelId authorId (some m.channel_id) = true then
      ⟨lg, some m, imp, false, some (deletedMessageBody m.content)⟩
    else ⟨lg, some m, imp, false, none⟩
  | none => ⟨lg, some m, imp, false, none⟩

/-- MESSAGE_DELETE handler (src/index.tsx lines 318-350): guard on id,
channel and guild presence; resolve the message from the live store,
else the local logged-message map; on a miss, import the external
logging collaborator's cache (importResult, none when both import paths
fail) and retry both lookups once; if still unresolved, log an error
and return with no notification. -/
def messageDelete (whitelist : String) (currentChannelId : Option String)
    (store : List ((String × String) × DMessage))
    (loggedMessages : List (String × DMessage))
    (importResult : Option (List (String × DMessage)))
    (id channelId guildId : Option String) : MessageDeleteResult :=
  match id, channelId, guildId with
  | some i, some c, some g =>
    if i = "" ∨ c = "" ∨ g = "" then ⟨loggedMessages, none, false, false, none⟩
    else
      match jsOrMsg (getMessage store c i) (lookupLogged loggedMessages i) with
      | some m => deleteFinish whitelist currentChannelId loggedMessages false m
      | none =>
        let logged2 := importResult.getD []
        match jsOrMsg (getMessage store c i) (lookupLogged logged2 i) with
        | some m => deleteFinish whitelist currentChannelId logged2 true m
        | none => ⟨logged2, none, true, true, none⟩
  | _, _, _ => ⟨loggedMessages, none, false, false, none⟩

/- ============================================================ -/
/-  Context Menu Patch (src/index.tsx lines 237-252)            -/
/- ============================================================ -/

/-- The properties of a context-menu child relevant to the patch: its
props id (none models a child without an id, such as the separator) and
its label. -/
structure MenuChildProps where
  propsId : Option String
  label : Option String
deriving DecidableEq, Repr

/-- The user-context props handed to the patch. -/
structure UserContextProps where
  userId : String
deriving DecidableEq, Repr

/-- contextMenuPatch (src/index.tsx lines 237-252): return unchanged
when props are missing or the target user is the current user; guard
against duplicate insertion by the fixed id; otherwise append a
separator and the follow/unfollow toggle labeled from the whitelist. -/
def contextMenuPatch (children : List MenuChildProps) (props : Option UserContextProps)
    (currentUserId : String) (whitelist : String) : List MenuChildProps :=
  match props with
  | none => children
  | some p =>
    if p.userId = currentUserId then children
    else if children.any (fun child => child.propsId == some "follower-v1") then children
    else
      children ++
        [⟨none, none⟩,
         ⟨some "follower-v1",
          some (if isInWhitelist whitelist p.userId = true then "Stop Following User"
                else "Follow User")⟩]

/- ============================================================ -/
/-  Concrete data used by witnesses and counterexamples         -/
/- ============================================================ -/

/-- A cached profile snapshot for user u1 with an untracked publicFlags
field of 1. -/
def cachedC6 : JValue :=
  .obj (.cons "user"
    (.obj (.cons "id" (.str "u1")
      (.cons "username" (.str "x")
        (.cons "publicFlags" (.num 1) .nil)))) .nil)

/-- The user fields of a fresh profile-fetch payload for user u1,
identical to the cached snapshot on every tracked field but with
public_flags now 2. -/
def ufieldsC6 : JFields :=
  .cons "id" (.str "u1")
    (.cons "username" (.str "x")
      (.cons "public_flags" (.num 2) .nil))

/-- The top-level fields of that payload. -/
def pfieldsC6 : JFields := .cons "user" (.obj ufieldsC6) .nil

/-- The fresh profile-fetch payload for user u1. -/
def payloadC6 : JValue := .obj pfieldsC6

/-- The snapshot cache holding cachedC6 under u1. -/
def oldUsersC6 : List (String × JValue) := [("u1", cachedC6)]

/-- The spec's key-normalization example input. -/
def payloadC9 : JValue :=
  .obj (.cons "global_name" (.str "x")
    (.cons "nested_obj" (.obj (.cons "accent_color" (.num 1) .nil)) .nil))

/-- The spec's key-normalization example output. -/
def camelC9 : JValue :=
  .obj (.cons "globalName" (.str "x")
    (.cons "nestedObj" (.obj (.cons "accentColor" (.num 1) .nil)) .nil))

/-- A message content of 101 identical characters, one character past
the hardcoded 100-character clip of the MESSAGE_DELETE notification. -/
def longContentC8 : String := String.mk (List.replicate 101 'a')

/-- A deleted message by whitelisted author u1 in channel c1. -/
def msgC8 : DMessage := ⟨"m1", "c1", some "u1", longContentC8⟩

/-- A live message store holding msgC8. -/
def storeC8 : List ((String × String) × DMessage) := [(("c1", "m1"), msgC8)]

/-- A character list with no leading and no trailing whitespace; the
characterization of trim-invariant ids. -/
def noWsEnds (l : List Char) : Prop :=
  (∀ c, l.head? = some c → Char.isWhitespace c = false) ∧
  (∀ c, l.getLast? = some c → Char.isWhitespace c = false)

/- ============================================================ -/
/-  Decidable equality for the JSON value types                 -/
/- ============================================================ -/

mutual
theorem beqJValue_iff_eq : ∀ a b : JValue, JValue.beq a b = true ↔ a = b
  | .str a, .str b => by simp [JValue.beq]
  | .num a, .num b => by simp [JValue.beq]
  | .jbool a, .jbool b => by simp [JValue.beq]
  | .null, .null => by simp [JValue.beq]
  | .obj a, .obj b => by simp [JValue.beq, beqJFields_iff_eq a b]
  | .arr a, .arr b => by simp [JValue.beq, beqJArr_iff_eq a b]
  | .str a, .num b => by simp [JValue.beq]
  | .str a, .jbool b => by simp [JValue.beq]
  | .str a, .null => by simp [JValue.beq]
  | .str a, .obj b => by simp [JValue.beq]
  | .str a, .arr b => by simp [JValue.beq]
  | .num a, .str b => by simp [JValue.beq]
  | .num a, .jbool b => by simp [JValue.beq]
  | .num a, .null => by simp [JValue.beq]
  | .num a, .obj b => by simp [JValue.beq]
  | .num a, .arr b => by simp [JValue.beq]
  | .jbool a, .str b => by simp [JValue.beq]
  | .jbool a, .num b => by simp [JValue.beq]
  | .jbool a, .null => by simp [JValue.beq]
  | .jbool a, .obj b => by simp [JValue.beq]
  | .jbool a, .arr b => by simp [JValue.beq]
  | .null, .str b => by simp [JValue.beq]
  | .null, .num b => by simp [JValue.beq]
  | .null, .jbool b => by simp [JValue.beq]
  | .null, .obj b => by simp [JValue.beq]
  | .null, .arr b => by simp [JValue.beq]
  | .obj a, .str b => by simp [JValue.beq]
  | .obj a, .num b => by simp [JValue.beq]
  | .obj a, .jbool b => by simp [JValue.beq]
  | .obj a, .null => by simp [JValue.beq]
  | .obj a, .arr b => by simp [JValue.beq]
  | .arr a, .str b => by simp [JValue.beq]
  | .arr a, .num b => by simp [JValue.beq]
  | .arr a, .jbool b => by simp [JValue.beq]
  | .arr a, .null => by simp [JValue.beq]
  | .arr a, .obj b => by simp [JValue.beq]

theorem beqJFields_iff_eq : ∀ a b : JFields, JFields.beq a b = true ↔ a = b
  | .nil, .nil => by simp [JFields.beq]
  | .cons k v r, .cons k2 v2 r2 => by
    simp [JFields.beq, beqJValue_iff_eq v v2, beqJFields_iff_eq r r2, and_assoc]
  | .nil, .cons _ _ _ => by simp [JFields.beq]
  | .cons _ _ _, .nil => by simp [JFields.beq]

theorem beqJArr_iff_eq : ∀ a b : JArr, JArr.beq a b = true ↔ a = b
  | .nil, .nil => by simp [JArr.beq]
  | .cons v r, .cons v2 r2 => by simp [JArr.beq, beqJValue_iff_eq v v2, beqJArr_iff_eq r r2]
  | .nil, .cons _ _ => by simp [JArr.beq]
  | .cons _ _, .nil => by simp [JArr.beq]
end

instance : DecidableEq JValue := fun a b =>
  decidable_of_iff (JValue.beq a b = true) (beqJValue_iff_eq a b)

instance : DecidableEq JFields := fun a b =>
  decidable_of_iff (JFields.beq a b = true) (beqJFields_iff_eq a b)

instance : DecidableEq JArr := fun a b =>
  decidable_of_iff (JArr.beq a b = true) (beqJArr_iff_eq a b)

/- ============================================================ -/
/-  Lemmas about the whitelist parse and join                   -/
/- ============================================================ -/

theorem jsSplitComma_ne_nil (l : List Char) : jsSplitComma l ≠ [] := by
  cases l with
  | nil => simp [jsSplitComma]
  | cons c rest =>
    simp only [jsSplitComma]
    split
    · simp
    · split <;> simp

theorem mem_jsSplitComma_no_comma : ∀ (l : List Char), ∀ x ∈ jsSplitComma l, ',' ∉ x := by
  intro l
  induction l with
  | nil =>
    intro x hx
    simp [jsSplitComma] at hx
    subst hx
    simp
  | cons c rest ih =>
    intro x hx
    by_cases hc : c = ','
    · rw [show jsSplitComma (c :: rest) = [] :: jsSplitComma rest by simp [jsSplitComma, hc]] at hx
      rcases List.mem_cons.mp hx with h | h
      · subst h; simp
      · exact ih x h
    · rcases hsplit : jsSplitComma rest with _ | ⟨t, ts⟩
      · exact absurd hsplit (jsSplitComma_ne_nil rest)
      · rw [show jsSplitComma (c :: rest) = (c :: t) :: ts by
          simp [jsSplitComma, hc, hsplit]] at hx
        rcases List.mem_cons.mp hx with h | h
        · subst h
          intro hmem
          rcases List.mem_cons.mp hmem with h2 | h2
          · exact hc h2.symm
          · exact ih t (by rw [hsplit]; exact List.mem_cons_self t ts) h2
        · exact ih x (by rw [hsplit]; exact List.mem_cons_of_mem t h)

theorem jsSplitComma_no_comma (x : List Char) (hx : ',' ∉ x) : jsSplitComma x = [x] := by
  induction x with
  | nil => rfl
  | cons c t ih =>
    have hc : c ≠ ',' := by rintro rfl; exact hx (List.mem_cons_self _ _)
    have ht : ',' ∉ t := fun h => hx (List.mem_cons_of_mem c h)
    simp [jsSplitComma, hc, ih ht]

theorem jsSplitComma_append (x rest : List Char) (hx : ',' ∉ x) :
    jsSplitComma (x ++ ',' :: rest) = x :: jsSplitComma rest := by
  induction x with
  | nil => simp [jsSplitComma]
  | cons c t ih =>
    have hc : c ≠ ',' := by rintro rfl; exact hx (List.mem_cons_self _ _)
    have ht : ',' ∉ t := fun h => hx (List.mem_cons_of_mem c h)
    simp [jsSplitComma, hc, ih ht]

theorem jsSplitComma_join : ∀ (x : List Char) (xs : List (List Char)),
    (∀ t ∈ x :: xs, ',' ∉ t) → jsSplitComma (joinCommaChars (x :: xs)) = x :: xs := by
  intro x xs
  induction xs generalizing x with
  | nil =>
    intro h
    show jsSplitComma x = [x]
    exact jsSplitComma_no_comma x (h x (List.mem_cons_self _ _))
  | cons y ys ih =>
    intro h
    show jsSplitComma (x ++ ',' :: joinCommaChars (y :: ys)) = x :: y :: ys
    rw [jsSplitComma_append x _ (h x (List.mem_cons_self _ _)),
        ih y (fun t ht => h t (List.mem_cons_of_mem x ht))]

theorem dropWhile_eq_self_of_head (p : Char → Bool) (l : List Char)
    (h : ∀ c, l.head? = some c → p c = false) : l.dropWhile p = l := by
  cases l with
  | nil => rfl
  | cons a t => simp [List.dropWhile_cons, h a rfl]

theorem dropWhile_head_not (p : Char → Bool) :
    ∀ (l : List Char) (c : Char), (l.dropWhile p).head? = some c → p c = false := by
  intro l
  induction l with
  | nil => intro c h; simp at h
  | cons a t ih =>
    intro c h
    rw [List.dropWhile_cons] at h
    by_cases hp : p a
    · rw [if_pos hp] at h; exact ih c h
    · rw [if_neg hp] at h
      have hac : a = c := by simpa using h
      subst hac
      simpa using hp

theorem trimChars_eq_self (l : List Char) (h : noWsEnds l) : trimChars l = l := by
  unfold trimChars
  rw [dropWhile_eq_self_of_head _ l h.1]
  rw [dropWhile_eq_self_of_head _ l.reverse
    (fun c hc => h.2 c (by rwa [List.head?_reverse] at hc))]
  exact List.reverse_reverse l

theorem noWsEnds_trimChars (l : List Char) : noWsEnds (trimChars l) := by
  constructor
  · intro c hc
    unfold trimChars at hc
    rw [List.head?_reverse] at hc
    set A := (l.dropWhile Char.isWhitespace).reverse with hA
    have hBne : A.dropWhile Char.isWhitespace ≠ [] := by
      intro hB
      rw [hB] at hc
      simp at hc
    obtain ⟨pre, hpre⟩ := List.dropWhile_suffix (l := A) Char.isWhitespace
    have hlast : (A.dropWhile Char.isWhitespace).getLast? = A.getLast? := by
      conv_rhs => rw [← hpre]
      exact (List.getLast?_append_of_ne_nil pre hBne).symm
    rw [hlast, hA, List.getLast?_reverse] at hc
    exact dropWhile_head_not _ _ _ hc
  · intro c hc
    unfold trimChars at hc
    rw [List.getLast?_reverse] at hc
    exact dropWhile_head_not _ _ _ hc

theorem mem_of_mem_trimChars {l : List Char} {c : Char} (h : c ∈ trimChars l) : c ∈ l := by
  unfold trimChars at h
  rw [List.mem_reverse] at h
  have h2 := (List.dropWhile_suffix Char.isWhitespace).sublist.subset h
  rw [List.mem_reverse] at h2
  exact (List.dropWhile_suffix Char.isWhitespace).sublist.subset h2

theorem mem_parseWhitelist (s t : String) (h : t ∈ parseWhitelist s) :
    t ≠ "" ∧ ',' ∉ t.data ∧ noWsEnds t.data := by
  unfold parseWhitelist at h
  by_cases hs : s = ""
  · rw [if_pos hs] at h; simp at h
  · rw [if_neg hs] at h
    obtain ⟨hmem, hne⟩ := List.mem_filter.mp h
    obtain ⟨x, hx, hxt⟩ := List.mem_map.mp hmem
    have hdata : t.data = trimChars x := by rw [← hxt]; rfl
    refine ⟨by simpa using hne, ?_, ?_⟩
    · intro hc
      rw [hdata] at hc
      exact mem_jsSplitComma_no_comma _ x hx (mem_of_mem_trimChars hc)
    · rw [hdata]
      exact noWsEnds_trimChars x

theorem parseWhitelist_joinCommas (l : List String)
    (h : ∀ t ∈ l, t ≠ "" ∧ ',' ∉ t.data ∧ noWsEnds t.data) :
    parseWhitelist (joinCommas l) = l := by
  cases l with
  | nil => decide
  | cons x xs =>
    have hx := h x (List.mem_cons_self x xs)
    have hxdata : x.data ≠ [] := fun hd => hx.1 (congrArg String.mk hd)
    have hsne : joinCommas (x :: xs) ≠ "" := by
      intro he
      have hdd : (joinCommas (x :: xs)).data = [] := congrArg String.data he
      rw [show (joinCommas (x :: xs)).data
        = joinCommaChars (x.data :: xs.map String.data) from rfl] at hdd
      cases hxs : xs.map String.data with
      | nil =>
        rw [hxs] at hdd
        exact hxdata hdd
      | cons y ys =>
        rw [hxs] at hdd
        simp [joinCommaChars] at hdd
    have hcf : ∀ t ∈ x.data :: xs.map String.data, ',' ∉ t := by
      intro t ht
      rcases List.mem_cons.mp ht with h1 | h1
      · subst h1; exact hx.2.1
      · obtain ⟨u, hu, hut⟩ := List.mem_map.mp h1
        rw [← hut]
        exact (h u (List.mem_cons_of_mem x hu)).2.1
    unfold parseWhitelist
    rw [if_neg hsne]
    rw [show (joinCommas (x :: xs)).data
      = joinCommaChars (x.data :: xs.map String.data) from rfl]
    rw [jsSplitComma_join x.data (xs.map String.data) hcf]
    have hmap : (x.data :: xs.map String.data).map (fun l => trimStr (String.mk l)) = x :: xs := by
      rw [show x.data :: xs.map String.data = (x :: xs).map String.data from rfl]
      rw [List.map_map]
      have heach : ∀ t ∈ x :: xs,
          ((fun l => trimStr (String.mk l)) ∘ String.data) t = (fun t => t) t := by
        intro t ht
        show String.mk (trimChars t.data) = t
        rw [trimChars_eq_self t.data (h t ht).2.2]
      rw [List.map_congr_left heach, List.map_id']
    rw [hmap]
    apply List.filter_eq_self.mpr
    intro a ha
    simpa using (h a ha).1

theorem parse_add_of_not_mem (s id : String) (h1 : id ≠ "") (h2 : ',' ∉ id.data)
    (h3 : noWsEnds id.data) (hm : id ∉ parseWhitelist s) :
    parseWhitelist (addToWhitelist s id) = parseWhitelist s ++ [id] := by
  simp only [addToWhitelist]
  rw [if_neg hm]
  apply parseWhitelist_joinCommas
  intro t ht
  rcases List.mem_append.mp ht with h | h
  · exact mem_parseWhitelist s t h
  · simp at h; subst h; exact ⟨h1, h2, h3⟩

theorem parse_remove_of_mem (s id : String) (hm : id ∈ parseWhitelist s) :
    parseWhitelist (removeFromWhitelist s id) = (parseWhitelist s).erase id := by
  simp only [removeFromWhitelist]
  rw [if_pos hm]
  apply parseWhitelist_joinCommas
  intro t ht
  exact mem_parseWhitelist s t (List.mem_of_mem_erase ht)

/- ============================================================ -/
/-  Claim theorems                                              -/
/- ============================================================ -/

/-- C1: shouldNotify(u, c) returns true if and only if u is in the
Whitelist Store and c differs from the id of the currently focused
channel; in particular it is false whenever u is not whitelisted
regardless of c, and an absent c (none) still differs from any real
channel id. -/
theorem shouldNotify_spec (w : String) (cur c : Option String) (u : String) :
    (shouldNotify w cur u c = true ↔ (isInWhitelist w u = true ∧ cur ≠ c))
    ∧ (isInWhitelist w u = false → shouldNotify w cur u c = false)
    ∧ (∀ realId : String, shouldNotify w (some realId) u none = isInWhitelist w u) := by
  refine ⟨?_, ?_, ?_⟩
  · simp [shouldNotify]
  · intro h
    simp [shouldNotify, h]
  · intro realId
    simp [shouldNotify]

/-- Witness for C1: a non-whitelisted user produces no notification. -/
theorem shouldNotify_spec_witness :
    isInWhitelist "a,b" "c" = false ∧ shouldNotify "a,b" (some "x") "c" (some "y") = false :=
  ⟨by decide, (shouldNotify_spec "a,b" (some "x") (some "y") "c").2.1 (by decide)⟩

/-- C2 (amended): for every nonempty, comma-free, whitespace-trimmed id,
after add(id) the store contains id; when the id was already present the
add leaves the persisted string unchanged (a no-op, with a warning) and
contains(id) is still true. -/
theorem whitelist_add_contains (s id : String) (h1 : id ≠ "") (h2 : ',' ∉ id.data)
    (h3 : trimChars id.data = id.data) :
    isInWhitelist (addToWhitelist s id) id = true
    ∧ (id ∈ parseWhitelist s → addToWhitelist s id = s) := by
  have hNoWs : noWsEnds id.data := h3 ▸ noWsEnds_trimChars id.data
  by_cases hm : id ∈ parseWhitelist s
  · have hadd : addToWhitelist s id = s := by
      simp only [addToWhitelist]
      rw [if_pos hm]
    refine ⟨?_, fun _ => hadd⟩
    rw [hadd]
    simpa [isInWhitelist] using hm
  · refine ⟨?_, fun hmem => absurd hmem hm⟩
    have hparse := parse_add_of_not_mem s id h1 h2 hNoWs hm
    simp [isInWhitelist, hparse]

/-- Witness for C2 at a concrete well-formed id. -/
theorem whitelist_add_contains_witness :
    (("u2" : String) ≠ "" ∧ ',' ∉ ("u2" : String).data
      ∧ trimChars ("u2" : String).data = ("u2" : String).data)
    ∧ isInWhitelist (addToWhitelist "u1" "u2") "u2" = true :=
  ⟨by decide, (whitelist_add_contains "u1" "u2" (by decide) (by decide) (by decide)).1⟩

/-- C2 fails as universally stated: adding the empty id stores an empty
string whose parse filters empty items out, so contains stays false. -/
theorem whitelist_add_contains_counterexample :
    isInWhitelist (addToWhitelist "" "") "" = false := by decide

/-- C3 (amended): for every id and every persisted string whose parse
holds that id at most once, after remove(id) contains(id) is false. -/
theorem whitelist_remove_not_contains (s id : String)
    (h : (parseWhitelist s).count id ≤ 1) :
    isInWhitelist (removeFromWhitelist s id) id = false := by
  by_cases hm : id ∈ parseWhitelist s
  · have hparse := parse_remove_of_mem s id hm
    simp only [isInWhitelist, hparse]
    have hcount : ((parseWhitelist s).erase id).count id = 0 := by
      rw [List.count_erase_self]
      have h1 : 0 < (parseWhitelist s).count id := List.count_pos_iff.mpr hm
      omega
    have hnot : id ∉ (parseWhitelist s).erase id := by
      intro hmem
      have := List.count_pos_iff.mpr hmem
      omega
    simp [hnot]
  · have hrem : removeFromWhitelist s id = s := by
      simp only [removeFromWhitelist]
      rw [if_neg hm]
    rw [hrem]
    simp [isInWhitelist, hm]

/-- Witness for C3 at a concrete duplicate-free store. -/
theorem whitelist_remove_not_contains_witness :
    (parseWhitelist "u1,u2").count "u1" ≤ 1
    ∧ isInWhitelist (removeFromWhitelist "u1,u2" "u1") "u1" = false :=
  ⟨by decide, whitelist_remove_not_contains "u1,u2" "u1" (by decide)⟩

/-- C3 fails as universally stated: a persisted string holding the id
twice survives remove, which splices out only the first occurrence. -/
theorem whitelist_remove_not_contains_counterexample :
    isInWhitelist (removeFromWhitelist "a,a" "a") "a" = true := by decide

/-- C4 (amended): every operation parses the persisted string into an
ordered, trimmed, empty-filtered sequence that is NOT deduplicated by
the parse itself; membership is exact string equality, and both
mutations preserve the no-duplicates invariant for well-formed ids, so
stores reachable from a duplicate-free store stay duplicate-free. -/
theorem whitelist_parse_invariant (s id : String) (h1 : id ≠ "") (h2 : ',' ∉ id.data)
    (h3 : trimChars id.data = id.data) :
    (isInWhitelist s id = true ↔ id ∈ parseWhitelist s)
    ∧ ((parseWhitelist s).Nodup → (parseWhitelist (addToWhitelist s id)).Nodup)
    ∧ ((parseWhitelist s).Nodup → (parseWhitelist (removeFromWhitelist s id)).Nodup) := by
  have hNoWs : noWsEnds id.data := h3 ▸ noWsEnds_trimChars id.data
  refine ⟨by simp [isInWhitelist], ?_, ?_⟩
  · intro hnd
    by_cases hm : id ∈ parseWhitelist s
    · have hadd : addToWhitelist s id = s := by
        simp only [addToWhitelist]
        rw [if_pos hm]
      rw [hadd]
      exact hnd
    · rw [parse_add_of_not_mem s id h1 h2 hNoWs hm]
      simp [List.nodup_append, hnd, hm]
  · intro hnd
    by_cases hm : id ∈ parseWhitelist s
    · rw [parse_remove_of_mem s id hm]
      exact hnd.erase id
    · have hrem : removeFromWhitelist s id = s := by
        simp only [removeFromWhitelist]
        rw [if_neg hm]
      rw [hrem]
      exact hnd

/-- Witness for C4 at a concrete store and id. -/
theorem whitelist_parse_invariant_witness :
    (("u3" : String) ≠ "" ∧ ',' ∉ ("u3" : String).data
      ∧ trimChars ("u3" : String).data = ("u3" : String).data)
    ∧ (isInWhitelist "u1,u2" "u3" = true ↔ "u3" ∈ parseWhitelist "u1,u2") :=
  ⟨by decide, (whitelist_parse_invariant "u1,u2" "u3" (by decide) (by decide) (by decide)).1⟩

/-- C4 fails as stated: the parse of a string holding the same id twice
is not deduplicated. -/
theorem whitelist_parse_invariant_counterexample :
    ¬ (parseWhitelist "a,a").Nodup := by decide

/-- C5: the notification body for created and updated messages is the
content clipped to charLimit characters plus an ellipsis when a positive
limit is exceeded (charLimit 10 on the spec's example yields
"hello worl..."); a limit of 0 returns the content unmodified; empty
content falls back to the first attachment filename, then to the
generic placeholder. -/
theorem getMessageBody_spec :
    (∀ (charLimit : Int) (content : String) (atts : List String),
        charLimit > 0 → (content.length : Int) > charLimit → content ≠ "" →
        getMessageBody true charLimit content atts = content.take charLimit.toNat ++ "...")
    ∧ getMessageBody true 10 "hello world this is long" [] = "hello worl..."
    ∧ (∀ (content : String) (atts : List String), content ≠ "" →
        getMessageBody true 0 content atts = content)
    ∧ (∀ (f : String) (rest : List String), f ≠ "" →
        getMessageBody true 0 "" (f :: rest) = f)
    ∧ getMessageBody true 0 "" [] = placeholderBody := by
  refine ⟨?_, by decide, ?_, ?_, by decide⟩
  · intro charLimit content atts hpos hlen hne
    simp [getMessageBody, jsOrStr, hne]
    intro h
    exact absurd (h hpos) (not_le.mpr hlen)
  · intro content atts hne
    simp [getMessageBody, jsOrStr, hne]
  · intro f rest hne
    simp [getMessageBody, jsOrStr, hne]

/-- Witness for C5: the general clipping clause at the spec's example. -/
theorem getMessageBody_spec_witness :
    ((10 : Int) > 0
      ∧ ((("hello world this is long" : String).length : Int) > 10)
      ∧ ("hello world this is long" : String) ≠ "")
    ∧ getMessageBody true 10 "hello world this is long" []
        = "hello world this is long".take ((10 : Int).toNat) ++ "..." :=
  ⟨⟨by decide, by decide, by decide⟩,
   getMessageBody_spec.1 10 "hello world this is long" [] (by decide) (by decide) (by decide)⟩

/-- C6 (amended): for a whitelisted user with tracking enabled, when no
key of the fixed tracked field set changed versus the cached snapshot,
no notification is shown and the snapshot cache is left unchanged; the
snapshot is written only on first observation (or when a notification
fires). -/
theorem userProfileFetch_unchanged (w : String) (oldUsers : List (String × JValue))
    (pfields ufields : JFields) (uid : String)
    (hu : jlookup pfields "user" = some (.obj ufields))
    (hid : jlookup ufields "id" = some (.str uid))
    (hne : uid ≠ "") (hwl : isInWhitelist w uid = true) :
    (∀ cached, cacheLookup oldUsers uid = some cached →
        profileChangedKeys ufields (cachedUserFields cached) = [] →
        userProfileFetchSuccess w true oldUsers (.obj pfields) = (oldUsers, none))
    ∧ (cacheLookup oldUsers uid = none →
        userProfileFetchSuccess w true oldUsers (.obj pfields)
          = (cacheSet oldUsers uid (convertSnakeCaseToCamelCase (.obj pfields)), none)) := by
  constructor
  · intro cached hcache hchanged
    simp only [userProfileFetchSuccess, hu, hid]
    rw [if_neg (by simp [hne, hwl])]
    simp only [hcache, hchanged]
    simp
  · intro hcache
    simp only [userProfileFetchSuccess, hu, hid]
    rw [if_neg (by simp [hne, hwl])]
    simp only [hcache]

/-- Witness for C6 at the concrete unchanged-profile payload. -/
theorem userProfileFetch_unchanged_witness :
    (jlookup pfieldsC6 "user" = some (.obj ufieldsC6)
      ∧ jlookup ufieldsC6 "id" = some (.str "u1")
      ∧ ("u1" : String) ≠ ""
      ∧ isInWhitelist "u1" "u1" = true
      ∧ cacheLookup oldUsersC6 "u1" = some cachedC6
      ∧ profileChangedKeys ufieldsC6 (cachedUserFields cachedC6) = [])
    ∧ userProfileFetchSuccess "u1" true oldUsersC6 (.obj pfieldsC6) = (oldUsersC6, none) :=
  ⟨⟨by decide, by decide, by decide, by decide, by decide, by decide⟩,
   (userProfileFetch_unchanged "u1" oldUsersC6 pfieldsC6 ufieldsC6 "u1"
      (by decide) (by decide) (by decide) (by decide)).1 cachedC6 (by decide) (by decide)⟩

/-- C6 fails as stated: with no tracked field changed the handler shows
no notification but also does NOT refresh the snapshot, which still
differs from the freshly normalized payload in an untracked field. -/
theorem userProfileFetch_counterexample :
    (userProfileFetchSuccess "u1" true oldUsersC6 payloadC6).2 = none
    ∧ cacheLookup (userProfileFetchSuccess "u1" true oldUsersC6 payloadC6).1 "u1"
        ≠ some (convertSnakeCaseToCamelCase payloadC6) := by decide

/-- C7: MESSAGE_DELETE resolves the message from the live store first,
then the local logged-message map; on a miss it imports the external
cache once and retries both lookups; if still unresolved it logs an
error and returns with no notification. -/
theorem messageDelete_resolution (w : String) (cur : Option String)
    (store : List ((String × String) × DMessage)) (logged : List (String × DMessage))
    (imp : Option (List (String × DMessage))) (i c g : String)
    (hi : i ≠ "") (hc : c ≠ "") (hg : g ≠ "") :
    (∀ m, getMessage store c i = some m →
        messageDelete w cur store logged imp (some i) (some c) (some g)
          = deleteFinish w cur logged false m)
    ∧ (getMessage store c i = none → ∀ m, lookupLogged logged i = some m →
        messageDelete w cur store logged imp (some i) (some c) (some g)
          = deleteFinish w cur logged false m)
    ∧ (getMessage store c i = none → lookupLogged logged i = none →
        ∀ m, lookupLogged (imp.getD []) i = some m →
        messageDelete w cur store logged imp (some i) (some c) (some g)
          = deleteFinish w cur (imp.getD []) true m)
    ∧ (getMessage store c i = none → lookupLogged logged i = none →
        lookupLogged (imp.getD []) i = none →
        messageDelete w cur store logged imp (some i) (some c) (some g)
          = ⟨imp.getD [], none, true, true, none⟩) := by
  have hguard : ¬(i = "" ∨ c = "" ∨ g = "") := by simp [hi, hc, hg]
  refine ⟨?_, ?_, ?_, ?_⟩
  · intro m hm
    simp only [messageDelete]
    rw [if_neg hguard]
    simp [jsOrMsg, hm]
  · intro hs m hm
    simp only [messageDelete]
    rw [if_neg hguard]
    simp [jsOrMsg, hs, hm]
  · intro hs hl m hm
    simp only [messageDelete]
    rw [if_neg hguard]
    simp [jsOrMsg, hs, hl, hm]
  · intro hs hl hm
    simp only [messageDelete]
    rw [if_neg hguard]
    simp [jsOrMsg, hs, hl, hm]

/-- Witness for C7: with everything missing the handler attempts the
import, logs the error and shows nothing. -/
theorem messageDelete_resolution_witness :
    (("m1" : String) ≠ "" ∧ ("c1" : String) ≠ "" ∧ ("g1" : String) ≠ "")
    ∧ messageDelete "u1" none [] [] none (some "m1") (some "c1") (some "g1")
        = ⟨[], none, true, true, none⟩ :=
  ⟨⟨by decide, by decide, by decide⟩,
   (messageDelete_resolution "u1" none [] [] none "m1" "c1" "g1"
      (by decide) (by decide) (by decide)).2.2.2 rfl rfl rfl⟩

/-- C8 (amended): the deleted-message notification body is the original
content clipped by the body-truncation rule at a hardcoded limit of 100
and wrapped in double quotes, independent of the configured charLimit
and of the showMessageBody setting. -/
theorem messageDelete_body (w : String) (cur : Option String)
    (store : List ((String × String) × DMessage)) (logged : List (String × DMessage))
    (imp : Option (List (String × DMessage))) (i c g : String) (m : DMessage) (a : String)
    (hi : i ≠ "") (hc : c ≠ "") (hg : g ≠ "")
    (hstore : getMessage store c i = some m)
    (ha : m.author_id = some a)
    (hgate : shouldNotify w cur a (some m.channel_id) = true) :
    (messageDelete w cur store logged imp (some i) (some c) (some g)).notificationBody
      = some ("\"" ++ specTruncate 100 m.content ++ "\"") := by
  have hguard : ¬(i = "" ∨ c = "" ∨ g = "") := by simp [hi, hc, hg]
  have hdq : deletedMessageBody m.content = "\"" ++ specTruncate 100 m.content ++ "\"" := by
    unfold deletedMessageBody specTruncate
    by_cases hlen : m.content.length > 100
    · rw [if_pos hlen, if_pos ⟨by decide, by exact_mod_cast hlen⟩]
      rfl
    · rw [if_neg hlen, if_neg (fun hand => hlen (by exact_mod_cast hand.2))]
  simp only [messageDelete]
  rw [if_neg hguard]
  simp only [hstore, jsOrMsg, deleteFinish, ha]
  rw [if_pos hgate]
  simp [hdq]

/-- Witness for C8 at the concrete 101-character message. -/
theorem messageDelete_body_witness :
    (getMessage storeC8 "c1" "m1" = some msgC8
      ∧ msgC8.author_id = some "u1"
      ∧ shouldNotify "u1" (some "c2") "u1" (some msgC8.channel_id) = true)
    ∧ (messageDelete "u1" (some "c2") storeC8 [] none
        (some "m1") (some "c1") (some "g1")).notificationBody
        = some ("\"" ++ specTruncate 100 msgC8.content ++ "\"") :=
  ⟨⟨by decide, by decide, by decide⟩,
   messageDelete_body "u1" (some "c2") storeC8 [] none "m1" "c1" "g1" msgC8 "u1"
     (by decide) (by decide) (by decide) (by decide) (by decide) (by decide)⟩

/-- C8 fails as stated: with the default configured limit of 118 a
101-character deleted message should be delivered unmodified, but the
handler clips it at a hardcoded 100 characters and adds quotes. -/
theorem messageDelete_body_counterexample :
    (messageDelete "u1" (some "c2") storeC8 [] none
        (some "m1") (some "c1") (some "g1")).notificationBody
      = some ("\"" ++ String.mk (List.replicate 100 'a') ++ "...\"")
    ∧ ("\"" ++ String.mk (List.replicate 100 'a') ++ "...\"") ≠ specTruncate 118 longContentC8
    ∧ specTruncate 118 longContentC8 = longContentC8 := by decide

/-- C9: the payload normalizer is a total function that leaves scalars
unchanged, maps arrays elementwise, and converts the spec's example
object with nested snake_case keys to its camelCase form. -/
theorem convertSnakeCase_spec :
    (∀ s, convertSnakeCaseToCamelCase (.str s) = .str s)
    ∧ (∀ n, convertSnakeCaseToCamelCase (.num n) = .num n)
    ∧ (∀ b, convertSnakeCaseToCamelCase (.jbool b) = .jbool b)
    ∧ convertSnakeCaseToCamelCase .null = .null
    ∧ (∀ xs, convertSnakeCaseToCamelCase (.arr xs) = .arr (convArrAux xs))
    ∧ (∀ v rest, convArrAux (.cons v rest)
        = .cons (convertSnakeCaseToCamelCase v) (convArrAux rest))
    ∧ convertSnakeCaseToCamelCase payloadC9 = camelC9 :=
  ⟨fun _ => rfl, fun _ => rfl, fun _ => rfl, rfl, fun _ => rfl, fun _ _ => rfl, by decide⟩

/-- C10: the context-menu patch never adds the follow/unfollow item when
the target user is the currently logged-in user; the children are
returned unchanged. -/
theorem contextMenuPatch_own_user (children : List MenuChildProps) (w uid : String) :
    contextMenuPatch children (some ⟨uid⟩) uid w = children := by
  simp [contextMenuPatch]

end Follower
